import Mathlib

/-
Verification development for the GWAS summary-statistics harmonization
pipeline (src/src/main.rs).  The pipeline's core (the reference join engine
dbsnp_matching, the allele-flip transform, and the concurrent batch-lookup
engine ref_alt_check) is shallowly embedded below: tables are lists of
string rows, numeric cell text is modelled as exact decimal rationals
(every value appearing in the concrete theorems is exactly representable
in binary64 and formats identically there), external subprocesses are
oracles passed in as parameters, and panics/aborts are modelled as none.
-/

/- ---------------------------------------------------------------
   Numeric model for cells parsed with str::parse::<f64>() and written
   back with f64::to_string().  Decimal text is parsed exactly into a
   rational; formatting prints the shortest plain decimal (no exponent,
   no trailing zeros), which agrees with Rust's Display output on every
   concrete value used in this file.
   --------------------------------------------------------------- -/

def digitsToNatAux : List Char → Nat → Option Nat
  | [], acc => some acc
  | ch :: rest, acc =>
    if ch.isDigit then digitsToNatAux rest (acc * 10 + (ch.toNat - 48)) else none

def parseBody (l : List Char) (neg : Bool) : Option ℚ :=
  let ip := l.takeWhile Char.isDigit
  let rest := l.dropWhile Char.isDigit
  match rest with
  | [] =>
    if ip.isEmpty then none
    else (digitsToNatAux ip 0).map (fun nn =>
      mkRat (if neg then -(nn : Int) else (nn : Int)) 1)
  | dot :: frac =>
    if (dot == '.') && frac.all Char.isDigit && (!ip.isEmpty || !frac.isEmpty) then
      (digitsToNatAux ip 0).bind (fun ii =>
        (digitsToNatAux frac 0).map (fun ff =>
          let nn : Nat := ii * 10 ^ frac.length + ff
          mkRat (if neg then -(nn : Int) else (nn : Int)) (10 ^ frac.length)))
    else none

def parseF (s : String) : Option ℚ :=
  match s.data with
  | [] => none
  | ch :: rest =>
    if ch = '-' then parseBody rest true
    else if ch = '+' then parseBody rest false
    else parseBody (ch :: rest) false

def fmtDigits (n k : Nat) : String :=
  let s := Nat.repr n
  if k = 0 then s
  else if s.length ≤ k then
    "0." ++ String.mk (List.replicate (k - s.length) '0') ++ s
  else
    String.mk (s.data.take (s.length - k)) ++ "." ++ String.mk (s.data.drop (s.length - k))

def qZero : ℚ := mkRat 0 1

/-- the complement 1.0 - f, written with mkRat so that it evaluates in the
kernel (Batteries marks Rat.sub irreducible); qOneSub_eq shows it is 1 - f. -/
def qOneSub (f : ℚ) : ℚ := mkRat ((f.den : Int) - f.num) f.den

theorem qOneSub_eq (f : ℚ) : qOneSub f = 1 - f := by
  rw [Rat.sub_def]
  simp [qOneSub, mkRat]

def scaleNum (a : ℚ) (k : Nat) : ℚ := mkRat (a.num * ((10 ^ k : Nat) : Int)) a.den

def fmtF (v : ℚ) : String :=
  let a := if Rat.blt v qZero then Rat.neg v else v
  let sgn := if Rat.blt v qZero then "-" else ""
  match (List.range 400).find? (fun k => (scaleNum a k).den == 1) with
  | some k => sgn ++ fmtDigits (scaleNum a k).num.toNat k
  | none => sgn ++ "?"

/- ---------------------------------------------------------------
   Tabular store (struct Data, main.rs lines 87-142).
   --------------------------------------------------------------- -/

abbrev Row := List String

structure Data where
  header : List String
  data : List Row
deriving DecidableEq

def Data.idx_opt (d : Data) (key : String) : Option Nat :=
  d.header.findIdx? (fun x => x == key)

/-- unique-variant-key string, format!("{}_{}_{}_{}", ...) at main.rs 763, 790, 822, 952. -/
def uid4 (a b c d : String) : String :=
  a ++ "_" ++ b ++ "_" ++ c ++ "_" ++ d

def uidOf (c p r a : Nat) (row : Row) : String :=
  uid4 (row.getD c "") (row.getD p "") (row.getD r "") (row.getD a "")

def key5 (c p r a q : Nat) (row : Row) : List String :=
  [row.getD c "", row.getD p "", row.getD r "", row.getD a "", row.getD q ""]

def key4 (c p r a : Nat) (row : Row) : List String :=
  [row.getD c "", row.getD p "", row.getD r "", row.getD a ""]

/- ---------------------------------------------------------------
   Allele-flip transform (main.rs 812-826 and 1070-1078).
   The source writes
     let (one, two) = r.split_at_mut(alt.max(ref_));
     std::mem::swap(&mut one[min], &mut two[max]);
   one[min] is r[min], but two[max] is r[max + max] (two starts at index
   max), so the code swaps r[min] with r[2*max], not r[min] with r[max].
   one[min] panics when min >= max (one has length max) and two[max]
   panics when 2*max >= r.len(); panics are modelled as none.
   --------------------------------------------------------------- -/

def swapCells (mn mx : Nat) (row : Row) : Option Row :=
  if mn < mx ∧ mx + mx < row.length then
    some ((row.set mn (row.getD (mx + mx) "")).set (mx + mx) (row.getD mn ""))
  else none

/-- the flip body shared by both engines: the (buggy) swap, then
effect_size := -parse(effect_size), EAF := 1.0 - parse(EAF); a failed
parse is an unwrap panic (none). -/
def flipRow (rf al es ea : Nat) (row : Row) : Option Row := do
  let r1 ← swapCells (min rf al) (max rf al) row
  let e ← parseF (r1.getD es "")
  let r2 := r1.set es (fmtF (Rat.neg e))
  let f ← parseF (r2.getD ea "")
  some (r2.set ea (fmtF (qOneSub f)))

/-- join-engine flip (main.rs 812-826): after flipping, the last cell
(r.len()-1) is overwritten with the recomputed unique id read from the
raw-data index positions. -/
def flipJoinRow (c p r a es ea : Nat) (row : Row) : Option Row :=
  (flipRow r a es ea row).map (fun r2 => r2.set (r2.length - 1) (uidOf c p r a r2))

/- ---------------------------------------------------------------
   Reference join engine (dbsnp_matching, main.rs 677-989).
   The model starts at the point where raw_data already has the
   14-column layout produced by the bed merge and reorder (line 677).
   --------------------------------------------------------------- -/

/-- the dbsnp HashMap (main.rs 704-716) as a lookup: the key is the
5-tuple of cells at the dbsnp key indices; on duplicate catalog keys the
later row wins (HashMap insertion overwrites). -/
def dbsnpMapLookup (rows : List Row) (dks : List Nat) (key : List String) : Option Row :=
  rows.reverse.find? (fun x => dks.map (fun i => x.getD i "") == key)

/-- the non-key dbsnp columns appended on a hit (main.rs 758-762). -/
def extrasOf (dLen : Nat) (dks : List Nat) (drow : Row) : Row :=
  ((List.range dLen).filter (fun i => !(dks.contains i))).map (fun i => drow.getD i "")

/-- one probe (main.rs 748-768 / 775-795): look the row's key up, on a
hit append the catalog's non-key columns and then the unique id built
from the raw-data index positions (both probes push the id from
raw_data_idxs, i.e. the unswapped positions). -/
def probeRow (dbsnpRows : List Row) (dLen : Nat) (dks : List Nat)
    (kc kp kr ka kq c p r a : Nat) (row : Row) : Option Row :=
  (dbsnpMapLookup dbsnpRows dks (key5 kc kp kr ka kq row)).map (fun drow =>
    let r2 := row ++ extrasOf dLen dks drow
    r2 ++ [uidOf c p r a r2])

def probePass (dbsnpRows : List Row) (dLen : Nat) (dks : List Nat)
    (kc kp kr ka kq c p r a : Nat) (rows : List Row) : List Row :=
  rows.filterMap (probeRow dbsnpRows dLen dks kc kp kr ka kq c p r a)

/-- retain with a seen-set (main.rs 828-831): keep the first row for each
key value. -/
def dedupKeep (f : Row → String) : List String → List Row → List Row
  | _, [] => []
  | seen, x :: xs =>
    if seen.contains (f x) then dedupKeep f seen xs
    else x :: dedupKeep f (f x :: seen) xs

/-- the matched-table computation (main.rs 732-831).  NOTE the source bug:
raw_data_flipped is cloned from raw_data_merged at line 742, after
raw_data_merged.data was emptied by mem::take at line 733, so the flipped
probe (lines 771-796) runs over an empty buffer and the flipped-candidate
table is always empty. -/
def mergeStage (dbsnpRows : List Row) (dLen : Nat) (dks : List Nat)
    (c p r a q es ea u : Nat) (S : List Row) : Option (List Row) := do
  let direct := probePass dbsnpRows dLen dks c p r a q c p r a S
  let flipped := probePass dbsnpRows dLen dks c p a r q c p r a ([] : List Row)
  let uids := direct.map (fun x => x.getD u "")
  let survivors := flipped.filter (fun x => !(uids.contains (x.getD u "")))
  let flipped2 ← survivors.mapM (flipJoinRow c p r a es ea)
  some (dedupKeep (fun x => x.getD u "") [] (direct ++ flipped2))

/-- raw_unique_ids (main.rs 857-877): the 4-field keys of every matched
row, in both allele orientations. -/
def missingKeys (c p r a : Nat) (merged : List Row) : List (List String) :=
  merged.map (key4 c p r a) ++ merged.map (key4 c p a r)

/-- the missing table (main.rs 882-896): rows whose own key is not among
the matched keys and whose cross-build coordinates are present. -/
def missingStage (c p r a p19 p38 : Nat) (merged S : List Row) : List Row :=
  S.filter (fun row =>
    !((missingKeys c p r a merged).contains (key4 c p r a row))
      && row.getD p19 "" != "NA" && row.getD p38 "" != "NA"
      && row.getD p19 "" != "NaN" && row.getD p38 "" != "NaN")

def coordsPresent (p19 p38 : Nat) (row : Row) : Prop :=
  row.getD p19 "" ≠ "NA" ∧ row.getD p38 "" ≠ "NA" ∧
  row.getD p19 "" ≠ "NaN" ∧ row.getD p38 "" ≠ "NaN"

def exactlyOne (A B C : Prop) : Prop :=
  (A ∧ ¬ B ∧ ¬ C) ∨ (¬ A ∧ B ∧ ¬ C) ∨ (¬ A ∧ ¬ B ∧ C)

/-- the final column order (main.rs 833-855). -/
def NEW_ORDER : List String :=
  ["rsid", "unique_id", "chr_hg19", "pos_hg19", "ref", "alt", "effect_size",
   "standard_error", "EAF", "pvalue", "pvalue_het", "N_total", "N_case",
   "N_ctrl", "chr_hg38", "pos_hg38", "gnomAD_AF_EUR", "gnomAD_AF_AMR",
   "gnomAD_AF_AFR", "gnomAD_AF_EAS", "gnomAD_AF_SAS"]

/-- the reorder used inside dbsnp_matching (main.rs 920-932 and 965-977):
keep the cells whose header name occurs in the target order and stably
sort them by their first position in the target order (itertools
sorted_by_key is stable, so this equals concatenating, per target name in
order, the cells bearing that name).  Absent target names are NOT padded:
the row simply comes out shorter. -/
def reorderFilter (new_order header row : List String) : List String :=
  (new_order.map (fun nm =>
    ((header.zip row).filter (fun pr => pr.1 == nm)).map (fun pr => pr.2))).flatten

/-- tail of dbsnp_matching (main.rs 917-989): reorder the matched table,
append NA placeholder columns and the unique id to every missing row,
then the assert_eq shape checks at lines 958, 983 and 985; those asserts
index data[0], a panic (none) when the table is empty. -/
def dbsnpPost (c p r a : Nat) (extraNames mh : List String)
    (merged missing : List Row) : Option (Data × Data) :=
  let mergedR := merged.map (fun row => reorderFilter NEW_ORDER mh row)
  let missingAug := missing.map (fun row =>
    let r2 := row ++ extraNames.map (fun _ => "NA")
    r2 ++ [uidOf c p r a r2])
  match missingAug with
  | [] => none
  | m0 :: _ =>
    if mh.length = m0.length then
      let missingR := missingAug.map (fun row => reorderFilter NEW_ORDER mh row)
      match mergedR, missingR with
      | mr0 :: mrs, ms0 :: mss =>
        if NEW_ORDER.length = mr0.length then
          if NEW_ORDER.length = ms0.length then
            some (Data.mk NEW_ORDER (mr0 :: mrs), Data.mk NEW_ORDER (ms0 :: mss))
          else none
        else none
      | _, _ => none
    else none

/-- dbsnp_matching (main.rs 677-989) from the point where the dbsnp
catalog has been read.  Unwrapped idx lookups are modelled as none. -/
def dbsnp_matching (dbsnp rawData : Data) : Option (Data × Data) := do
  let dc ← dbsnp.idx_opt "chr"
  let dp ← dbsnp.idx_opt "pos_hg19"
  let dr ← dbsnp.idx_opt "ref"
  let da ← dbsnp.idx_opt "alt"
  let dq ← dbsnp.idx_opt "pos_hg38"
  let dks := [dc, dp, dr, da, dq]
  let c ← rawData.idx_opt "chr_hg19"
  let p ← rawData.idx_opt "pos_hg19"
  let r ← rawData.idx_opt "ref"
  let a ← rawData.idx_opt "alt"
  let q ← rawData.idx_opt "pos_hg38"
  let extraNames := ((List.range dbsnp.header.length).filter
    (fun i => !(dks.contains i))).map (fun i => dbsnp.header.getD i "")
  let mh := rawData.header ++ extraNames ++ ["unique_id"]
  let u ← mh.findIdx? (fun x => x == "unique_id")
  let es ← mh.findIdx? (fun x => x == "effect_size")
  let ea ← mh.findIdx? (fun x => x == "EAF")
  let merged ← mergeStage dbsnp.data dbsnp.header.length dks c p r a q es ea u rawData.data
  let missing := missingStage c p r a p q merged rawData.data
  dbsnpPost c p r a extraNames mh merged missing

/-- the reorder used in preformat (main.rs 435-459): per target column
take the cell at its first index in the old header, or "NA" when the
target name is absent. -/
def reorder_pad (d : Data) (new_order : List String) : Data :=
  { header := new_order,
    data := d.data.map (fun row =>
      (new_order.map (fun nm => d.idx_opt nm)).map (fun oi =>
        match oi with
        | some i => row.getD i ""
        | none => "NA")) }

/- ---------------------------------------------------------------
   Concurrent reference-lookup engine (ref_alt_check, main.rs 993-1085).
   --------------------------------------------------------------- -/

/-- str::to_uppercase, written over the character list so that it
evaluates in the kernel. -/
def upString (s : String) : String := String.mk (s.data.map Char.toUpper)

/-- str::starts_with('>'), written over the character list so that it
evaluates in the kernel. -/
def startsGt (s : String) : Bool :=
  match s.data with
  | [] => false
  | ch :: _ => ch == '>'

/-- per-batch stdout parsing (main.rs 1042-1047): drop FASTA headers,
map a multi-character line to the ambiguous sentinel "N", upper-case. -/
def parseLines (lines : List String) : List String :=
  (lines.filter (fun l => !(startsGt l))).map
    (fun l => if l.length > 1 then "N" else upString l)

/-- the write-back positions (main.rs 1042-1048): the idx-th parsed base
of the batch starting at c*s goes to slot c*s + idx. -/
def chunkWrites (s c : Nat) (bases : List String) : List (Nat × String) :=
  bases.enum.map (fun pr => (c * s + pr.1, pr.2))

def applyWrites (b : List (Option String)) (ws : List (Nat × String)) : List (Option String) :=
  ws.foldl (fun acc pr => acc.set pr.1 (some pr.2)) b

/-- the pre-sized MaybeUninit results buffer (main.rs 1008-1012). -/
def initBuf (n : Nat) : List (Option String) := List.replicate n none

/-- chunks = (num_inputs + chunk_size - 1) / chunk_size (main.rs 1014). -/
def numChunks (n s : Nat) : Nat := (n + s - 1) / s

def chunkBases (outs : List (List String)) (c : Nat) : List String :=
  parseLines (outs.getD c [])

def stepChunk (s : Nat) (outs : List (List String)) (b : List (Option String))
    (c : Nat) : List (Option String) :=
  applyWrites b (chunkWrites s c (chunkBases outs c))

/-- the worker pool (main.rs 1019-1053) generalized over the order in
which batches are claimed and completed: sched is the sequence of batch
indices in completion order (the atomic counter hands each index out
exactly once, so a run is any permutation of range numChunks); outs
gives the external tool's stdout lines for each batch. -/
def runSched (n s : Nat) (outs : List (List String)) (sched : List Nat) :
    List (Option String) :=
  sched.foldl (stepChunk s outs) (initBuf n)

def allWrites (n s : Nat) (outs : List (List String)) : List (Nat × String) :=
  (List.range (numChunks n s)).flatMap (fun c => chunkWrites s c (chunkBases outs c))

/-- result of one external-tool invocation: spawn failure (the unwrap on
Command::output() panics), or exit status together with stdout lines. -/
def ToolRes : Type := Except Unit (Int × List String)

/-- one iteration of the batch loop (main.rs 1022-1049): slice the batch
[c*s, min (c*s+s) n) out of the query list, invoke the tool on it (an
unwrap panic — none — if it cannot be spawned; the returned exit status
st.1 is never inspected, exactly as in the source, which reads only
output.stdout), and write the parsed bases back at c*s + offset. -/
def chunkStep (tool : List String → ToolRes) (inputs : List String) (s : Nat)
    (b : List (Option String)) (c : Nat) : Option (List (Option String)) :=
  match tool ((inputs.drop (c * s)).take (min s (inputs.length - c * s))) with
  | Except.error _ => none
  | Except.ok st => some (applyWrites b (chunkWrites s c (parseLines st.2)))

/-- the batch loop of ref_alt_check (main.rs 1019-1056), sequentialized
(order-independence is proved separately about runSched). -/
def runChunks (tool : List String → ToolRes) (inputs : List String) (s : Nat) :
    Option (List (Option String)) :=
  (List.range (numChunks inputs.length s)).foldlM (chunkStep tool inputs s)
    (initBuf inputs.length)

/-- pairing and conditional flip (main.rs 1062-1081): each missing row is
zipped with its base; if the base equals the row's current alt cell the
row is flipped, otherwise it passes through unchanged. -/
def reconcileMissing (rf al es ea : Nat) (missing : List Row) (nucs : List String) :
    Option (List Row) :=
  (missing.zip nucs).mapM (fun dn =>
    if dn.1.getD al "" = dn.2 then flipRow rf al es ea dn.1 else some dn.1)

/-- ref_alt_check (main.rs 993-1085): build one query per missing row,
run the batch lookup, freeze the buffer (reading an unfilled MaybeUninit
slot is undefined behavior, modelled as none), then append the
reconciled missing rows to the matched table. -/
def ref_alt_check (tool : List String → ToolRes) (merged missing : Data) : Option Data := do
  let c38 ← missing.idx_opt "chr_hg38"
  let p38 ← missing.idx_opt "pos_hg38"
  let inputs := missing.data.map (fun row =>
    "chr" ++ row.getD c38 "" ++ ":" ++ row.getD p38 "" ++ "-" ++ row.getD p38 "")
  let buf ← runChunks tool inputs 5000
  let nucs ← buf.mapM (fun x => x)
  let rf ← merged.idx_opt "ref"
  let al ← merged.idx_opt "alt"
  let es ← merged.idx_opt "effect_size"
  let ea ← merged.idx_opt "EAF"
  let extra ← reconcileMissing rf al es ea missing.data nucs
  some { header := merged.header, data := merged.data ++ extra }

/- ---------------------------------------------------------------
   Concrete instances used by the claim theorems and witnesses.
   --------------------------------------------------------------- -/

/-- the 14-column layout of raw_data at main.rs 635-650. -/
def header14 : List String :=
  ["chr_hg19", "pos_hg19", "ref", "alt", "effect_size", "standard_error", "EAF",
   "pvalue", "pvalue_het", "N_total", "N_case", "N_ctrl", "chr_hg38", "pos_hg38"]

/-- the key-symmetry scenario catalog: (chr=1, pos19=100, ref=A, alt=G, pos38=200). -/
def dbsnpC2 : Data :=
  Data.mk ["chr", "pos_hg19", "ref", "alt", "pos_hg38", "rsid"]
    [["1", "100", "A", "G", "200", "rs1"]]

/-- the key-symmetry scenario input row: (chr19=1, pos19=100, ref=G, alt=A,
effect=0.5, EAF=0.3, pos38=200). -/
def rawC2 : Data :=
  Data.mk header14
    [["1", "100", "G", "A", "0.5", "0.01", "0.3", "0.001", "NA", "1000",
      "600", "400", "1", "200"]]

/-- a join-engine-layout row with parseable effect (index 4) and EAF
(index 6) text. -/
def rowC3 : Row :=
  ["7", "77", "G", "A", "0.25", "0.01", "0.4", "0.001", "NA", "100", "50",
   "50", "7", "177"]

/-- catalog for the duplicate-key scenario: one entry matching the first
input row directly; carries the annotation columns the final reorder needs. -/
def dbsnpC4 : Data :=
  Data.mk ["chr", "pos_hg19", "ref", "alt", "pos_hg38", "rsid", "gnomAD_AF_EUR",
    "gnomAD_AF_AMR", "gnomAD_AF_AFR", "gnomAD_AF_EAS", "gnomAD_AF_SAS"]
    [["1", "300", "C", "T", "400", "rs9", "0.1", "0.2", "0.3", "0.4", "0.5"]]

/-- input with one catalog-matched row followed by two identical unmatched
rows with complete coordinates. -/
def rawC4 : Data :=
  Data.mk header14
    [["1", "300", "C", "T", "0.1", "0.01", "0.5", "0.001", "NA", "1000",
      "600", "400", "1", "400"],
     ["1", "100", "A", "G", "0.5", "0.01", "0.25", "0.001", "NA", "1000",
      "600", "400", "1", "200"],
     ["1", "100", "A", "G", "0.5", "0.01", "0.25", "0.001", "NA", "1000",
      "600", "400", "1", "200"]]

/-- an external-lookup oracle that succeeds with exit status 0 and returns
base C for both queries (matching neither row's alleles). -/
def toolC4 : List String → ToolRes := fun _ => Except.ok (0, ["C", "C"])

/-- the final table of the duplicate-key scenario. -/
def finalC4 : Option Data :=
  (dbsnp_matching dbsnpC4 rawC4).bind (fun pr => ref_alt_check toolC4 pr.1 pr.2)

/-- a missing row in the final 21-column layout (ref at 4, alt at 5,
effect_size at 6, EAF at 8, pvalue_het at 10, unique_id at 1). -/
def rowC6 : Row :=
  ["rs1", "1_100_A_G", "1", "100", "A", "G", "0.5", "0.01", "0.25", "0.001",
   "0.9", "1000", "600", "400", "1", "200", "NA", "NA", "NA", "NA", "NA"]

/-- what main.rs 1070-1078 actually produces from rowC6 when the
looked-up base equals its alt: ref (4) and pvalue_het (10) are swapped,
alt is untouched, effect negated, EAF complemented. -/
def outC6 : Row :=
  ["rs1", "1_100_A_G", "1", "100", "0.9", "G", "-0.5", "0.01", "0.75", "0.001",
   "A", "1000", "600", "400", "1", "200", "NA", "NA", "NA", "NA", "NA"]

/-- the row the claim expects: ref and alt swapped, effect negated, EAF
complemented, everything else untouched. -/
def claimedC6 : Row :=
  ["rs1", "1_100_A_G", "1", "100", "G", "A", "-0.5", "0.01", "0.75", "0.001",
   "0.9", "1000", "600", "400", "1", "200", "NA", "NA", "NA", "NA", "NA"]

/-- a second missing row in the final layout, used for the frame claim. -/
def rowC10 : Row :=
  ["rsX", "9_9_T_C", "9", "9", "T", "C", "0.3", "0.02", "0.2", "0.01", "0.7",
   "500", "250", "250", "9", "99", "NA", "NA", "NA", "NA", "NA"]

/-- what the lookup-stage flip produces from rowC10. -/
def outC10 : Row :=
  ["rsX", "9_9_T_C", "9", "9", "0.7", "C", "-0.3", "0.02", "0.8", "0.01", "T",
   "500", "250", "250", "9", "99", "NA", "NA", "NA", "NA", "NA"]

/-- a lookup oracle that exits with NON-ZERO status 1 while still
printing one result line. -/
def toolC8 : List String → ToolRes := fun _ => Except.ok (1, ["a"])

def headerC8 : List String := ["ref", "alt", "effect_size", "EAF", "chr_hg38", "pos_hg38"]

def mergedC8 : Data := Data.mk headerC8 [["G", "T", "0.1", "0.5", "1", "50"]]

def missingC8 : Data := Data.mk headerC8 [["A", "C", "0.5", "0.25", "1", "200"]]

/- ---------------------------------------------------------------
   Claim theorems: concrete evaluations.
   --------------------------------------------------------------- -/

/-- Claim C2 (evaluation at the failing input): for the key-symmetry
scenario, a probe of the input rows under the swapped key does hit the
catalog entry, but the engine computes its flipped-candidate table from a
buffer that was emptied by mem::take before being cloned (main.rs 733 vs
742), so the matched table comes out empty and dbsnp_matching then
panics indexing data[0] of the empty matched table in its shape assert
(main.rs 983) — no matched output row is ever produced, contradicting
the claimed single harmonized row (ref=A, alt=G, effect=-0.5, EAF=0.7). -/
theorem c2_key_symmetry_eval :
    probePass dbsnpC2.data 6 [0, 1, 2, 3, 4] 0 1 3 2 13 0 1 2 3 rawC2.data =
      [["1", "100", "G", "A", "0.5", "0.01", "0.3", "0.001", "NA", "1000",
        "600", "400", "1", "200", "rs1", "1_100_G_A"]] ∧
    mergeStage dbsnpC2.data 6 [0, 1, 2, 3, 4] 0 1 2 3 13 4 6 15 rawC2.data =
      some [] ∧
    dbsnp_matching dbsnpC2 rawC2 = none :=
  ⟨by decide, by decide, by decide⟩

/-- Claim C3 (evaluation at the failing input): at the join engine's own
column positions (ref=2, alt=3, effect_size=4, EAF=6) on a 14-column row
with parseable numeric text, one application of the flip already aborts:
the swap writes the former ref allele into cell 2*max(ref,alt) = 6, which
is the EAF cell, and the subsequent parse::<f64>().unwrap() panics — so
flip twice cannot restore the row. -/
theorem c3_flip_involution_eval :
    flipRow 2 3 4 6 rowC3 = none ∧
    (flipRow 2 3 4 6 rowC3).bind (flipRow 2 3 4 6) = none :=
  ⟨by decide, by decide⟩

/-- Claim C6 (evaluation at the failing input): a missing row in the
final 21-column layout whose looked-up base equals its alt allele is
"flipped", but the flip swaps ref (index 4) with pvalue_het (index
10 = 2*max(4,5)) and leaves alt untouched: the output row keeps alt = G,
carries the old pvalue_het value in its ref cell and the old ref allele
in its pvalue_het cell — not the claimed ref/alt swap. -/
theorem c6_lookup_flip_eval :
    reconcileMissing 4 5 6 8 [rowC6] ["G"] = some [outC6] ∧
    rowC6.getD 5 "" = "G" ∧
    outC6.getD 5 "" = "G" ∧
    outC6.getD 4 "" = "0.9" ∧
    outC6.getD 10 "" = "A" ∧
    outC6 ≠ claimedC6 :=
  ⟨by decide, by decide, by decide, by decide, by decide, by decide⟩

/-- Claim C10 (evaluation at the failing input): the lookup-stage flip
does leave the stored unique_id (cell 1) untouched, but it is not a
frame over {ref, alt, effect_size, EAF}: the pvalue_het cell (index
10 = 2*max(ref,alt)) changes as well, receiving the old ref allele. -/
theorem c10_flip_frame_eval :
    reconcileMissing 4 5 6 8 [rowC10] ["C"] = some [outC10] ∧
    outC10.getD 1 "" = rowC10.getD 1 "" ∧
    outC10.getD 10 "" ≠ rowC10.getD 10 "" :=
  ⟨by decide, by decide, by decide⟩

/-- Claim C4 (counterexample): in the duplicate-key scenario the final
merged table (join-engine output with the lookup-stage rows appended)
contains the Unique Variant Key "1_100_A_G" twice — the lookup-stage
rows are never deduplicated against the table they are appended to. -/
theorem c4_unique_key_cex :
    NEW_ORDER.getD 1 "" = "unique_id" ∧
    finalC4.map (fun d => (d.data.map (fun row => row.getD 1 "")).count "1_100_A_G") =
      some 2 :=
  ⟨by decide, by decide⟩

/-- Claim C7 (counterexample): the join-engine reorder (main.rs 920-932,
965-977) applied to a header lacking the requested column "b" does not
pad with "NA": the row comes out one cell shorter than the new header. -/
theorem c7_na_padding_cex :
    reorderFilter ["a", "b", "c"] ["a", "c"] ["1", "2"] = ["1", "2"] ∧
    (reorderFilter ["a", "b", "c"] ["a", "c"] ["1", "2"]).length ≠
      (["a", "b", "c"] : List String).length ∧
    "NA" ∉ reorderFilter ["a", "b", "c"] ["a", "c"] ["1", "2"] :=
  ⟨by decide, by decide, by decide⟩

/-- Claim C8 (counterexample): the external lookup tool exits with
NON-ZERO status 1 yet the run completes and produces a final table — the
source never reads the ExitStatus returned by Command::output(). -/
theorem c8_external_tool_cex :
    toolC8 ["chr1:200-200"] = Except.ok (1, ["a"]) ∧
    ref_alt_check toolC8 mergedC8 missingC8 =
      some (Data.mk headerC8
        [["G", "T", "0.1", "0.5", "1", "50"], ["A", "C", "0.5", "0.25", "1", "200"]]) :=
  ⟨rfl, by decide⟩

/- ---------------------------------------------------------------
   Helper lemmas.
   --------------------------------------------------------------- -/

theorem getD_eq_getElem? {α : Type} (l : List α) (n : Nat) (d : α) :
    l.getD n d = (l[n]?).getD d := by
  rw [List.getD_eq_getD_get?, List.get?_eq_getElem?]

theorem getD_map_lt {α β : Type} (f : α → β) (l : List α) (j : Nat) (hj : j < l.length)
    (d0 : β) (d1 : α) : (l.map f).getD j d0 = f (l.getD j d1) := by
  rw [getD_eq_getElem?, getD_eq_getElem?, List.getElem?_map,
    List.getElem?_eq_getElem hj]
  rfl

theorem dedupKeep_cons_mem (f : Row → String) (seen : List String) (x : Row)
    (xs : List Row) (h : f x ∈ seen) :
    dedupKeep f seen (x :: xs) = dedupKeep f seen xs := by
  have hc : seen.contains (f x) = true := List.elem_iff.2 h
  simp only [dedupKeep, hc, if_true]

theorem dedupKeep_cons_not_mem (f : Row → String) (seen : List String) (x : Row)
    (xs : List Row) (h : f x ∉ seen) :
    dedupKeep f seen (x :: xs) = x :: dedupKeep f (f x :: seen) xs := by
  have hc : seen.contains (f x) = false := by
    cases hb : seen.contains (f x)
    · rfl
    · exact absurd (List.elem_iff.1 hb) h
  simp only [dedupKeep, hc, Bool.false_eq_true, if_false]

theorem dedupKeep_not_seen (f : Row → String) :
    ∀ (l : List Row) (seen : List String), ∀ y ∈ dedupKeep f seen l, f y ∉ seen := by
  intro l
  induction l with
  | nil => intro seen y hy; cases hy
  | cons x xs ih =>
    intro seen y hy
    by_cases hm : f x ∈ seen
    · rw [dedupKeep_cons_mem f seen x xs hm] at hy
      exact ih seen y hy
    · rw [dedupKeep_cons_not_mem f seen x xs hm] at hy
      rcases List.mem_cons.1 hy with rfl | hmem
      · exact hm
      · intro hin
        exact ih (f x :: seen) y hmem (List.mem_cons_of_mem _ hin)

theorem dedupKeep_nodup (f : Row → String) :
    ∀ (l : List Row) (seen : List String), ((dedupKeep f seen l).map f).Nodup := by
  intro l
  induction l with
  | nil => intro seen; simp [dedupKeep]
  | cons x xs ih =>
    intro seen
    by_cases hm : f x ∈ seen
    · rw [dedupKeep_cons_mem f seen x xs hm]
      exact ih seen
    · rw [dedupKeep_cons_not_mem f seen x xs hm, List.map_cons]
      refine List.nodup_cons.2 ⟨?_, ih (f x :: seen)⟩
      intro hmem
      rcases List.mem_map.1 hmem with ⟨y, hy, hfy⟩
      exact dedupKeep_not_seen f xs (f x :: seen) y hy
        (by rw [hfy]; exact List.mem_cons_self _ _)

theorem dedupKeep_sublist (f : Row → String) :
    ∀ (l : List Row) (seen : List String), (dedupKeep f seen l).Sublist l := by
  intro l
  induction l with
  | nil => intro seen; simp [dedupKeep]
  | cons x xs ih =>
    intro seen
    by_cases hm : f x ∈ seen
    · rw [dedupKeep_cons_mem f seen x xs hm]
      exact (ih seen).cons x
    · rw [dedupKeep_cons_not_mem f seen x xs hm]
      exact (ih (f x :: seen)).cons₂ x

theorem dedupKeep_first (f : Row → String) :
    ∀ (l : List Row) (seen : List String), ∀ y ∈ dedupKeep f seen l,
      l.find? (fun z => f z == f y) = some y := by
  intro l
  induction l with
  | nil => intro seen y hy; cases hy
  | cons x xs ih =>
    intro seen y hy
    by_cases hm : f x ∈ seen
    · rw [dedupKeep_cons_mem f seen x xs hm] at hy
      have hne : (f x == f y) = false := by
        rw [beq_eq_false_iff_ne]
        intro hxy
        exact dedupKeep_not_seen f xs seen y hy (hxy ▸ hm)
      rw [List.find?_cons, hne]
      exact ih seen y hy
    · rw [dedupKeep_cons_not_mem f seen x xs hm] at hy
      rcases List.mem_cons.1 hy with rfl | hmem
      · rw [List.find?_cons, beq_self_eq_true]
      · have hne : (f x == f y) = false := by
          rw [beq_eq_false_iff_ne]
          intro hxy
          exact dedupKeep_not_seen f xs (f x :: seen) y hmem
            (hxy ▸ List.mem_cons_self _ _)
        rw [List.find?_cons, hne]
        exact ih (f x :: seen) y hmem

theorem dedupKeep_covers (f : Row → String) :
    ∀ (l : List Row) (seen : List String), ∀ x ∈ l, f x ∉ seen →
      ∃ y ∈ dedupKeep f seen l, f y = f x := by
  intro l
  induction l with
  | nil => intro seen x hx; cases hx
  | cons w xs ih =>
    intro seen x hx hns
    by_cases hm : f w ∈ seen
    · rw [dedupKeep_cons_mem f seen w xs hm]
      rcases List.mem_cons.1 hx with rfl | hmem
      · exact absurd hm hns
      · exact ih seen x hmem hns
    · rw [dedupKeep_cons_not_mem f seen w xs hm]
      by_cases hfx : f x = f w
      · exact ⟨w, List.mem_cons_self _ _, hfx.symm⟩
      · rcases List.mem_cons.1 hx with rfl | hmem
        · exact absurd rfl hfx
        · have hns2 : f x ∉ f w :: seen := by
            intro hin
            rcases List.mem_cons.1 hin with h1 | h2
            · exact hfx h1
            · exact hns h2
          rcases ih (f w :: seen) x hmem hns2 with ⟨y, hy, hfy⟩
          exact ⟨y, List.mem_cons_of_mem _ hy, hfy⟩

/-- with the emptied-buffer bug, the flipped-candidate list is empty, so
the matched table is exactly the deduplicated direct-hit list. -/
theorem mergeStage_eq (dbsnpRows : List Row) (dLen : Nat) (dks : List Nat)
    (c p r a q es ea u : Nat) (S : List Row) :
    mergeStage dbsnpRows dLen dks c p r a q es ea u S =
      some (dedupKeep (fun x => x.getD u "") []
        (probePass dbsnpRows dLen dks c p r a q c p r a S)) := by
  simp [mergeStage, probePass, List.append_nil, List.mapM, List.mapM.loop]

/-- Claim C4 (amended): within the join engine's matched table every
unique-id value occurs at most once, the surviving rows are a
subsequence of the direct-hit list, each survivor is the first
occurrence of its key, and every probed row's key is represented; rows
appended later by the lookup stage are not deduplicated against this
table (see the counterexample). -/
theorem c4_unique_key_amended (dbsnpRows : List Row) (dLen : Nat) (dks : List Nat)
    (c p r a q es ea u : Nat) (S merged : List Row)
    (h : mergeStage dbsnpRows dLen dks c p r a q es ea u S = some merged) :
    merged = dedupKeep (fun x => x.getD u "") []
        (probePass dbsnpRows dLen dks c p r a q c p r a S) ∧
    (merged.map (fun x => x.getD u "")).Nodup ∧
    merged.Sublist (probePass dbsnpRows dLen dks c p r a q c p r a S) ∧
    (∀ y ∈ merged,
      (probePass dbsnpRows dLen dks c p r a q c p r a S).find?
        (fun z => z.getD u "" == y.getD u "") = some y) ∧
    (∀ x ∈ probePass dbsnpRows dLen dks c p r a q c p r a S,
      ∃ y ∈ merged, y.getD u "" = x.getD u "") := by
  rw [mergeStage_eq] at h
  have hm := Option.some.inj h
  subst hm
  refine ⟨rfl, dedupKeep_nodup _ _ _, dedupKeep_sublist _ _ _,
    fun y hy => dedupKeep_first _ _ _ y hy,
    fun x hx => dedupKeep_covers _ _ _ x hx (by simp)⟩

def directC4 : List Row :=
  probePass dbsnpC4.data 11 [0, 1, 2, 3, 4] 0 1 2 3 13 0 1 2 3 rawC4.data

def mergedC4 : List Row := dedupKeep (fun x => x.getD 20 "") [] directC4

/-- Claim C4 witness: the amended statement instantiated at the
duplicate-key scenario (unique_id sits at index 20 of the pre-reorder
merged layout). -/
theorem c4_unique_key_witness :
    mergeStage dbsnpC4.data 11 [0, 1, 2, 3, 4] 0 1 2 3 13 4 6 20 rawC4.data =
      some mergedC4 ∧
    (mergedC4.map (fun x => x.getD 20 "")).Nodup :=
  ⟨by decide,
   (c4_unique_key_amended dbsnpC4.data 11 [0, 1, 2, 3, 4] 0 1 2 3 13 4 6 20
     rawC4.data mergedC4 (by decide)).2.1⟩

/-- the per-target-column cell selection of the preformat reorder. -/
def padCell (d : Data) (row : Row) (nm : String) : String :=
  match d.idx_opt nm with
  | some i => row.getD i ""
  | none => "NA"

/-- Claim C7 (amended): the preformat reorder (main.rs 435-459) succeeds
for every table and target order, padding each absent requested column
with "NA" so that every output row has exactly as many cells as the new
header; the join-engine reorders (main.rs 920-932, 965-977) instead drop
absent columns, leaving short rows (see the counterexample). -/
theorem c7_na_padding_amended (d : Data) (no : List String) (row : Row)
    (hrow : row ∈ d.data) :
    (reorder_pad d no).header = no ∧
    (no.map (padCell d row)) ∈ (reorder_pad d no).data ∧
    (no.map (padCell d row)).length = no.length ∧
    (∀ j, j < no.length → d.idx_opt (no.getD j "") = none →
      (no.map (padCell d row)).getD j "" = "NA") ∧
    (∀ j i, j < no.length → d.idx_opt (no.getD j "") = some i →
      (no.map (padCell d row)).getD j "" = row.getD i "") := by
  refine ⟨rfl, ?_, List.length_map _ _, ?_, ?_⟩
  · have : (no.map (fun nm => d.idx_opt nm)).map
        (fun oi => match oi with
          | some i => row.getD i ""
          | none => "NA") = no.map (padCell d row) := by
      rw [List.map_map]
      rfl
    have hmem : ((no.map (fun nm => d.idx_opt nm)).map
        (fun oi => match oi with
          | some i => row.getD i ""
          | none => "NA")) ∈ (reorder_pad d no).data :=
      List.mem_map_of_mem _ hrow
    rwa [this] at hmem
  · intro j hj hnone
    rw [getD_map_lt (padCell d row) no j hj "" ""]
    rw [getD_eq_getElem?] at hnone
    simp [padCell, hnone]
  · intro j i hj hsome
    rw [getD_map_lt (padCell d row) no j hj "" ""]
    rw [getD_eq_getElem?] at hsome
    simp [padCell, hsome]

def dataC7 : Data := Data.mk ["a", "c"] [["1", "2"]]

/-- Claim C7 witness: the amended statement instantiated at a table whose
header lacks the requested column "b". -/
theorem c7_na_padding_witness :
    (reorder_pad dataC7 ["a", "b", "c"]).header = ["a", "b", "c"] ∧
    (["1", "NA", "2"] : Row) ∈ (reorder_pad dataC7 ["a", "b", "c"]).data ∧
    (["a", "b", "c"].map (padCell dataC7 ["1", "2"])).getD 1 "" = "NA" := by
  have h := c7_na_padding_amended dataC7 ["a", "b", "c"] ["1", "2"] (by decide)
  refine ⟨h.1, ?_, h.2.2.2.1 1 (by decide) (by decide)⟩
  have : ["a", "b", "c"].map (padCell dataC7 ["1", "2"]) = ["1", "NA", "2"] := by decide
  rw [← this]
  exact h.2.1

/-- a spawn failure on any batch in the list aborts the whole fold. -/
theorem foldlM_chunkStep_none (tool : List String → ToolRes) (inputs : List String)
    (s : Nat) :
    ∀ (L : List Nat) (b : List (Option String)),
      (∃ c ∈ L, tool ((inputs.drop (c * s)).take (min s (inputs.length - c * s))) =
        Except.error ()) →
      L.foldlM (chunkStep tool inputs s) b = none := by
  intro L
  induction L with
  | nil =>
    intro b h
    rcases h with ⟨c, hc, _⟩
    cases hc
  | cons c0 L ih =>
    intro b h
    rcases hm : tool ((inputs.drop (c0 * s)).take (min s (inputs.length - c0 * s)))
      with e | st
    · show Option.bind (chunkStep tool inputs s b c0) _ = none
      rw [chunkStep, hm]
      rfl
    · rcases h with ⟨c, hc, herr⟩
      rcases List.mem_cons.1 hc with rfl | hmem
      · rw [hm] at herr
        cases herr
      · show Option.bind (chunkStep tool inputs s b c0) _ = none
        rw [chunkStep, hm]
        exact ih _ ⟨c, hmem, herr⟩

/-- Claim C8 (amended): if the external lookup subprocess cannot be
started, the run aborts with no output (first conjunct: any failing
batch kills the whole batch loop; second conjunct: with at least one
missing row and an unspawnable tool, ref_alt_check produces nothing).
The exit status of a subprocess that does start is, however, never
examined — see the counterexample. -/
theorem c8_external_tool_amended :
    (∀ (tool : List String → ToolRes) (inputs : List String) (s : Nat),
      (∃ c, c < numChunks inputs.length s ∧
        tool ((inputs.drop (c * s)).take (min s (inputs.length - c * s))) =
          Except.error ()) →
      runChunks tool inputs s = none) ∧
    (∀ (tool : List String → ToolRes) (merged missing : Data),
      missing.data ≠ [] → (∀ args, tool args = Except.error ()) →
      ref_alt_check tool merged missing = none) := by
  constructor
  · intro tool inputs s h
    rcases h with ⟨c, hc, herr⟩
    exact foldlM_chunkStep_none tool inputs s _ _ ⟨c, List.mem_range.2 hc, herr⟩
  · intro tool merged missing hne hfail
    cases h38 : missing.idx_opt "chr_hg38" with
    | none => simp [ref_alt_check, h38]
    | some c38 =>
      cases h39 : missing.idx_opt "pos_hg38" with
      | none => simp [ref_alt_check, h38, h39]
      | some p38 =>
        have hlen : 0 < missing.data.length := List.length_pos.2 hne
        have hrc : runChunks tool
            (missing.data.map (fun row =>
              "chr" ++ row.getD c38 "" ++ ":" ++ row.getD p38 "" ++ "-" ++ row.getD p38 ""))
            5000 = none := by
          apply foldlM_chunkStep_none
          refine ⟨0, List.mem_range.2 ?_, hfail _⟩
          have hl : 0 < (missing.data.map (fun row =>
              "chr" ++ row.getD c38 "" ++ ":" ++ row.getD p38 "" ++ "-" ++ row.getD p38 "")).length := by
            rw [List.length_map]
            exact hlen
          unfold numChunks
          omega
        simp [ref_alt_check, h38, h39, hrc, runChunks] at hrc ⊢
        intro a ha
        rw [hrc] at ha
        exact Option.noConfusion ha

def toolFail : List String → ToolRes := fun _ => Except.error ()

/-- Claim C8 witness: the amended statement instantiated with a tool
that cannot be spawned: both the batch loop and the whole lookup stage
abort with no output. -/
theorem c8_external_tool_witness :
    runChunks toolFail ["chr1:5-5"] 5000 = none ∧
    ref_alt_check toolFail mergedC8 missingC8 = none :=
  ⟨c8_external_tool_amended.1 toolFail ["chr1:5-5"] 5000 ⟨0, by decide, rfl⟩,
   c8_external_tool_amended.2 toolFail mergedC8 missingC8 (by decide) (fun _ => rfl)⟩

/- ---------------------------------------------------------------
   Claim C1: the missing-set partition.
   --------------------------------------------------------------- -/

/-- the allele swap on a 4-field key. -/
def swapK : List String → List String
  | [w, x, y, z] => [w, x, z, y]
  | l => l

theorem swapK_key4 (c p r a : Nat) (row : Row) :
    swapK (key4 c p r a row) = key4 c p a r row := rfl

theorem swapK_swapK (l : List String) : swapK (swapK l) = l := by
  match l with
  | [] => rfl
  | [w] => rfl
  | [w, x] => rfl
  | [w, x, y] => rfl
  | [w, x, y, z] => rfl
  | w :: x :: y :: z :: t :: rest => rfl

/-- the matched-key set is closed under the allele swap. -/
theorem missingKeys_swap_closed (c p r a : Nat) (merged : List Row)
    (k : List String) :
    swapK k ∈ missingKeys c p r a merged ↔ k ∈ missingKeys c p r a merged := by
  have fwd : ∀ k2, k2 ∈ missingKeys c p r a merged →
      swapK k2 ∈ missingKeys c p r a merged := by
    intro k2 hk2
    rcases List.mem_append.1 hk2 with hd | hs
    · rcases List.mem_map.1 hd with ⟨m, hm, rfl⟩
      refine List.mem_append.2 (Or.inr ?_)
      rw [swapK_key4]
      exact List.mem_map_of_mem _ hm
    · rcases List.mem_map.1 hs with ⟨m, hm, rfl⟩
      refine List.mem_append.2 (Or.inl ?_)
      have : swapK (key4 c p a r m) = key4 c p r a m := rfl
      rw [this]
      exact List.mem_map_of_mem _ hm
  constructor
  · intro h
    have := fwd (swapK k) h
    rwa [swapK_swapK] at this
  · exact fwd k

/-- membership in the missing table, unfolded to propositions. -/
theorem mem_missingStage (c p r a p19 p38 : Nat) (merged S : List Row) (row : Row) :
    row ∈ missingStage c p r a p19 p38 merged S ↔
      row ∈ S ∧ key4 c p r a row ∉ missingKeys c p r a merged ∧
        coordsPresent p19 p38 row := by
  unfold missingStage coordsPresent
  rw [List.mem_filter]
  constructor
  · rintro ⟨hS, hp⟩
    simp only [Bool.and_eq_true, Bool.not_eq_true', bne_iff_ne] at hp
    obtain ⟨⟨⟨⟨hk, h1⟩, h2⟩, h3⟩, h4⟩ := hp
    refine ⟨hS, ?_, h1, h2, h3, h4⟩
    intro hkm
    have hkm2 : (missingKeys c p r a merged).contains (key4 c p r a row) = true :=
      List.elem_iff.2 hkm
    rw [hkm2] at hk
    cases hk
  · rintro ⟨hS, hk, hc1, hc2, hc3, hc4⟩
    refine ⟨hS, ?_⟩
    simp only [Bool.and_eq_true, Bool.not_eq_true', bne_iff_ne]
    refine ⟨⟨⟨⟨?_, hc1⟩, hc2⟩, hc3⟩, hc4⟩
    cases hb : (missingKeys c p r a merged).contains (key4 c p r a row)
    · rfl
    · exact absurd (List.elem_iff.1 hb) hk

/-- Claim C1: after the join engine runs, every input row is counted in
exactly one of {matched (its key occurs among the matched keys in either
orientation), missing table, dropped}; and a row lands in the missing
table iff neither its own 4-field key nor its allele-swapped counterpart
occurs among the matched keys taken in both orientations, and both of
its cross-build coordinate cells are present (not "NA"/"NaN"). -/
theorem c1_missing_partition (dbsnpRows : List Row) (dLen : Nat) (dks : List Nat)
    (c p r a q es ea u p19 p38 : Nat) (S merged : List Row)
    (h : mergeStage dbsnpRows dLen dks c p r a q es ea u S = some merged) :
    ∀ row ∈ S,
      (row ∈ missingStage c p r a p19 p38 merged S ↔
        (key4 c p r a row ∉ missingKeys c p r a merged ∧
         key4 c p a r row ∉ missingKeys c p r a merged ∧
         coordsPresent p19 p38 row)) ∧
      exactlyOne (key4 c p r a row ∈ missingKeys c p r a merged)
        (row ∈ missingStage c p r a p19 p38 merged S)
        (key4 c p r a row ∉ missingKeys c p r a merged ∧
          ¬ coordsPresent p19 p38 row) := by
  intro row hrow
  have hswap : key4 c p a r row ∈ missingKeys c p r a merged ↔
      key4 c p r a row ∈ missingKeys c p r a merged := by
    rw [← swapK_key4]
    exact missingKeys_swap_closed c p r a merged _
  have hmem := mem_missingStage c p r a p19 p38 merged S row
  constructor
  · rw [hmem]
    constructor
    · rintro ⟨_, hk, hco⟩
      exact ⟨hk, fun hks => hk (hswap.1 hks), hco⟩
    · rintro ⟨hk, _, hco⟩
      exact ⟨hrow, hk, hco⟩
  · by_cases hA : key4 c p r a row ∈ missingKeys c p r a merged
    · refine Or.inl ⟨hA, ?_, ?_⟩
      · rw [hmem]
        rintro ⟨_, hk, _⟩
        exact hk hA
      · rintro ⟨hk, _⟩
        exact hk hA
    · by_cases hC : coordsPresent p19 p38 row
      · refine Or.inr (Or.inl ⟨hA, ?_, ?_⟩)
        · rw [hmem]
          exact ⟨hrow, hA, hC⟩
        · rintro ⟨_, hnc⟩
          exact hnc hC
      · refine Or.inr (Or.inr ⟨hA, ?_, ⟨hA, hC⟩⟩)
        rw [hmem]
        rintro ⟨_, _, hco⟩
        exact hC hco

def rowDupC4 : Row :=
  ["1", "100", "A", "G", "0.5", "0.01", "0.25", "0.001", "NA", "1000", "600",
   "400", "1", "200"]

/-- Claim C1 witness: the partition statement instantiated at the
duplicate-key scenario and its unmatched row. -/
theorem c1_missing_partition_witness :
    (rowDupC4 ∈ missingStage 0 1 2 3 1 13 mergedC4 rawC4.data ↔
      (key4 0 1 2 3 rowDupC4 ∉ missingKeys 0 1 2 3 mergedC4 ∧
       key4 0 1 3 2 rowDupC4 ∉ missingKeys 0 1 2 3 mergedC4 ∧
       coordsPresent 1 13 rowDupC4)) ∧
    exactlyOne (key4 0 1 2 3 rowDupC4 ∈ missingKeys 0 1 2 3 mergedC4)
      (rowDupC4 ∈ missingStage 0 1 2 3 1 13 mergedC4 rawC4.data)
      (key4 0 1 2 3 rowDupC4 ∉ missingKeys 0 1 2 3 mergedC4 ∧
        ¬ coordsPresent 1 13 rowDupC4) :=
  c1_missing_partition dbsnpC4.data 11 [0, 1, 2, 3, 4] 0 1 2 3 13 4 6 20 1 13
    rawC4.data mergedC4 (by decide) rowDupC4 (by decide)

/- ---------------------------------------------------------------
   Claims C5 and C9: the write-back machinery of the lookup engine.
   --------------------------------------------------------------- -/

theorem applyWrites_length (ws : List (Nat × String)) :
    ∀ b : List (Option String), (applyWrites b ws).length = b.length := by
  induction ws with
  | nil => intro b; rfl
  | cons w ws ih =>
    intro b
    have hstep : applyWrites b (w :: ws) = applyWrites (b.set w.1 (some w.2)) ws := rfl
    rw [hstep, ih, List.length_set]

theorem applyWrites_not_mem (k : Nat) :
    ∀ (ws : List (Nat × String)) (b : List (Option String)),
      (∀ pr ∈ ws, pr.1 ≠ k) → (applyWrites b ws)[k]? = b[k]? := by
  intro ws
  induction ws with
  | nil => intro b _; rfl
  | cons w ws ih =>
    intro b hk
    have hstep : applyWrites b (w :: ws) = applyWrites (b.set w.1 (some w.2)) ws := rfl
    rw [hstep, ih _ (fun pr hpr => hk pr (List.mem_cons_of_mem _ hpr))]
    exact List.getElem?_set_ne (hk w (List.mem_cons_self _ _))

theorem applyWrites_mem (k : Nat) (v : String) :
    ∀ (ws : List (Nat × String)) (b : List (Option String)),
      (ws.map Prod.fst).Nodup → (k, v) ∈ ws → k < b.length →
      (applyWrites b ws)[k]? = some (some v) := by
  intro ws
  induction ws with
  | nil => intro b _ hin _; cases hin
  | cons w ws ih =>
    intro b hnd hin hb
    rw [List.map_cons] at hnd
    have hstep : applyWrites b (w :: ws) = applyWrites (b.set w.1 (some w.2)) ws := rfl
    rcases List.mem_cons.1 hin with heq | hmem
    · have hw1 : w.1 = k := by rw [← heq]
      have hw2 : w.2 = v := by rw [← heq]
      have hknot : ∀ pr ∈ ws, pr.1 ≠ k := by
        intro pr hpr hek
        apply (List.nodup_cons.1 hnd).1
        rw [hw1, ← hek]
        exact List.mem_map_of_mem Prod.fst hpr
      rw [hstep, applyWrites_not_mem k ws _ hknot, hw1, hw2]
      exact List.getElem?_set_eq_of_lt _ hb
    · have hne : w.1 ≠ k := by
        intro hwk
        apply (List.nodup_cons.1 hnd).1
        rw [hwk]
        exact List.mem_map_of_mem Prod.fst hmem
      rw [hstep]
      exact ih _ (List.nodup_cons.1 hnd).2 hmem (by rw [List.length_set]; exact hb)

theorem chunkWrites_map_fst (s c : Nat) (bs : List String) :
    (chunkWrites s c bs).map Prod.fst =
      (List.range bs.length).map (fun i => c * s + i) := by
  unfold chunkWrites
  rw [List.map_map, ← List.enum_map_fst bs, List.map_map]
  rfl

theorem mem_chunkWrites_fst (s c k : Nat) (bs : List String) :
    k ∈ (chunkWrites s c bs).map Prod.fst ↔ ∃ i, i < bs.length ∧ c * s + i = k := by
  rw [chunkWrites_map_fst]
  constructor
  · intro h
    rcases List.mem_map.1 h with ⟨i, hi, hik⟩
    exact ⟨i, List.mem_range.1 hi, hik⟩
  · rintro ⟨i, hi, hik⟩
    exact List.mem_map.2 ⟨i, List.mem_range.2 hi, hik⟩

theorem chunkWrites_fst_nodup (s c : Nat) (bs : List String) :
    ((chunkWrites s c bs).map Prod.fst).Nodup := by
  rw [chunkWrites_map_fst]
  refine (List.nodup_range _).map ?_
  intro i j hij
  exact Nat.add_left_cancel hij

theorem chunkWrites_elem (s c i : Nat) (bs : List String) (hi : i < bs.length) :
    (c * s + i, bs.getD i "") ∈ chunkWrites s c bs := by
  have h1 : (chunkWrites s c bs)[i]? = some (c * s + i, bs.getD i "") := by
    unfold chunkWrites
    rw [List.getElem?_map, List.getElem?_enum bs i, List.getElem?_eq_getElem hi]
    rw [getD_eq_getElem?, List.getElem?_eq_getElem hi]
    rfl
  exact List.getElem?_mem h1

theorem div_mul_add_mod (k s : Nat) : k / s * s + k % s = k := by
  have h1 := Nat.mod_add_div k s
  have h2 : k / s * s = s * (k / s) := Nat.mul_comm _ _
  omega

/-- a slot index written by a batch determines the batch: k belongs to
batch k / s. -/
theorem div_of_chunk_mem (s c k : Nat) (bs : List String) (hlen : bs.length ≤ s)
    (hk : k ∈ (chunkWrites s c bs).map Prod.fst) : k / s = c := by
  rcases (mem_chunkWrites_fst s c k bs).1 hk with ⟨i, hi, hik⟩
  have hilt : i < s := lt_of_lt_of_le hi hlen
  apply Nat.div_eq_of_lt_le
  · rw [← hik]
    exact Nat.le_add_right _ _
  · rw [← hik, Nat.succ_mul]
    omega

theorem chunk_no_write (s c k : Nat) (bs : List String) (hlen : bs.length ≤ s)
    (hck : ¬ (c = k / s ∧ k % s < bs.length)) :
    ∀ pr ∈ chunkWrites s c bs, pr.1 ≠ k := by
  intro pr hpr hek
  have hkm : k ∈ (chunkWrites s c bs).map Prod.fst := by
    rw [← hek]
    exact List.mem_map_of_mem Prod.fst hpr
  have hdiv : k / s = c := div_of_chunk_mem s c k bs hlen hkm
  rcases (mem_chunkWrites_fst s c k bs).1 hkm with ⟨i, hi, hik⟩
  have hilt : i < s := lt_of_lt_of_le hi hlen
  have hmod : k % s = i := by
    rw [← hik, Nat.add_comm, Nat.add_mul_mod_self_right]
    exact Nat.mod_eq_of_lt hilt
  exact hck ⟨hdiv.symm, by rw [hmod]; exact hi⟩

/-- pointwise description of the buffer after any set of batches has
completed, in any order: slot k holds the (k mod s)-th base of batch
k div s when that batch ran and produced enough lines, and is untouched
otherwise. -/
theorem runFold_getElem (s : Nat) (hs : 0 < s) (outs : List (List String)) (k : Nat) :
    ∀ (cs : List Nat) (b : List (Option String)), cs.Nodup →
      (∀ c ∈ cs, (chunkBases outs c).length ≤ s) →
      k < b.length →
      (cs.foldl (stepChunk s outs) b)[k]? =
        if k / s ∈ cs ∧ k % s < (chunkBases outs (k / s)).length
        then some (some ((chunkBases outs (k / s)).getD (k % s) ""))
        else b[k]? := by
  intro cs
  induction cs with
  | nil =>
    intro b _ _ _
    simp
  | cons c cs ih =>
    intro b hnd hle hk
    have hblen : (stepChunk s outs b c).length = b.length := applyWrites_length _ _
    have hfold : (c :: cs).foldl (stepChunk s outs) b =
        cs.foldl (stepChunk s outs) (stepChunk s outs b c) := rfl
    rw [hfold, ih (stepChunk s outs b c) hnd.of_cons
      (fun c2 h2 => hle c2 (List.mem_cons_of_mem _ h2)) (by rw [hblen]; exact hk)]
    by_cases hc : c = k / s
    · subst hc
      have hnotin : k / s ∉ cs := (List.nodup_cons.1 hnd).1
      by_cases hoff : k % s < (chunkBases outs (k / s)).length
      · have hkeq : k / s * s + k % s = k := div_mul_add_mod k s
        have helem := chunkWrites_elem s (k / s) (k % s) (chunkBases outs (k / s)) hoff
        rw [hkeq] at helem
        have hw := applyWrites_mem k _ _ b
          (chunkWrites_fst_nodup s (k / s) (chunkBases outs (k / s))) helem hk
        rw [if_neg (fun hcon => hnotin hcon.1),
          if_pos ⟨List.mem_cons_self _ _, hoff⟩]
        exact hw
      · have hnw : (stepChunk s outs b (k / s))[k]? = b[k]? :=
          applyWrites_not_mem k _ b
            (chunk_no_write s (k / s) k _ (hle (k / s) (List.mem_cons_self _ _))
              (fun hcon => hoff hcon.2))
        rw [if_neg (fun hcon => hoff hcon.2), if_neg (fun hcon => hoff hcon.2), hnw]
    · have hnw : (stepChunk s outs b c)[k]? = b[k]? :=
        applyWrites_not_mem k _ b
          (chunk_no_write s c k _ (hle c (List.mem_cons_self _ _))
            (fun hcon => hc hcon.1))
      rw [hnw]
      by_cases hcin : k / s ∈ cs ∧ k % s < (chunkBases outs (k / s)).length
      · rw [if_pos hcin, if_pos ⟨List.mem_cons_of_mem _ hcin.1, hcin.2⟩]
      · rw [if_neg hcin, if_neg (fun hcon => hcin
          ⟨(List.mem_cons.1 hcon.1).resolve_left (fun h2 => hc h2.symm), hcon.2⟩)]

theorem foldl_stepChunk_length (s : Nat) (outs : List (List String)) :
    ∀ (cs : List Nat) (b : List (Option String)),
      (cs.foldl (stepChunk s outs) b).length = b.length := by
  intro cs
  induction cs with
  | nil => intro b; rfl
  | cons c cs ih =>
    intro b
    rw [List.foldl_cons, ih]
    exact applyWrites_length _ _

theorem div_lt_numChunks (n s k : Nat) (hs : 0 < s) (hk : k < n) :
    k / s < numChunks n s := by
  have h2 : k / s ≤ (n - 1) / s := Nat.div_le_div_right (by omega)
  have h3 : numChunks n s = (n - 1) / s + 1 := by
    unfold numChunks
    have he : n + s - 1 = (n - 1) + s := by omega
    rw [he, Nat.add_div_right _ hs]
  omega

theorem mod_lt_min (n s k : Nat) (hs : 0 < s) (hk : k < n) :
    k % s < min s (n - k / s * s) := by
  have h1 : k % s < s := Nat.mod_lt _ hs
  have h2 := div_mul_add_mod k s
  have h3 : k / s * s ≤ k := Nat.div_mul_le_self k s
  refine lt_min h1 ?_
  omega

/-- Claim C5: for every number of rows, every batch size, every per-batch
tool output producing exactly one base per query, and every order in
which the workers complete the batches (any permutation of the batch
indices), the results buffer ends up with batch (k div s)'s (k mod s)-th
parsed base in slot k — i.e. the (row, base) pairing is in original
input order, independently of the schedule. -/
theorem c5_lookup_order (n s : Nat) (hs : 0 < s) (outs : List (List String))
    (sched : List Nat) (hperm : sched.Perm (List.range (numChunks n s)))
    (hcnt : ∀ c, c < numChunks n s →
      (chunkBases outs c).length = min s (n - c * s)) :
    runSched n s outs sched =
      (List.range n).map (fun k =>
        some ((chunkBases outs (k / s)).getD (k % s) "")) := by
  have hnd : sched.Nodup := (hperm.nodup_iff).2 (List.nodup_range _)
  have hle : ∀ c ∈ sched, (chunkBases outs c).length ≤ s := by
    intro c hcs
    have hcr : c < numChunks n s := List.mem_range.1 (hperm.mem_iff.1 hcs)
    rw [hcnt c hcr]
    exact min_le_left _ _
  have hinit : (initBuf n).length = n := by simp [initBuf]
  have hlen : (runSched n s outs sched).length = n := by
    rw [runSched, foldl_stepChunk_length]
    exact hinit
  apply List.ext_getElem?
  intro k
  by_cases hk : k < n
  · have hmain := runFold_getElem s hs outs k sched (initBuf n) hnd hle
      (by rw [hinit]; exact hk)
    have hdl := div_lt_numChunks n s k hs hk
    have hcond : k / s ∈ sched ∧ k % s < (chunkBases outs (k / s)).length := by
      refine ⟨hperm.mem_iff.2 (List.mem_range.2 hdl), ?_⟩
      rw [hcnt _ hdl]
      exact mod_lt_min n s k hs hk
    rw [runSched, hmain, if_pos hcond, List.getElem?_map, List.getElem?_range hk]
    rfl
  · have h1 : (runSched n s outs sched)[k]? = none :=
      List.getElem?_eq_none (by rw [hlen]; omega)
    have h2 : ((List.range n).map (fun k =>
        some ((chunkBases outs (k / s)).getD (k % s) "")))[k]? = none :=
      List.getElem?_eq_none (by rw [List.length_map, List.length_range]; omega)
    rw [h1, h2]

def outsC5 : List (List String) := [[">h", "a", "t"], ["g"]]

/-- Claim C5 witness: three queries split into batches of two, with the
batches completed in reverse order, still pair each row with its own
base. -/
theorem c5_lookup_order_witness :
    runSched 3 2 outsC5 [1, 0] =
      (List.range 3).map (fun k =>
        some ((chunkBases outsC5 (k / 2)).getD (k % 2) "")) :=
  c5_lookup_order 3 2 (by decide) outsC5 [1, 0] (by decide) (by decide)

/-- Claim C9: when every batch emits exactly one base per query, every
buffer slot is written (and batches write pairwise-disjoint, internally
duplicate-free slot sets, so each slot exactly once) before the freeze;
and when some batch emits fewer bases than it has queries (none more),
some slot below n is never written, so the freeze reads an unfilled
MaybeUninit slot. -/
theorem c9_write_once (n s : Nat) (hs : 0 < s) (outs : List (List String)) :
    ((∀ c, c < numChunks n s → (chunkBases outs c).length = min s (n - c * s)) →
      (∀ k, k < n →
        (runSched n s outs (List.range (numChunks n s))).getD k none ≠ none) ∧
      (∀ c1 c2 k, c1 < numChunks n s → c2 < numChunks n s →
        k ∈ (chunkWrites s c1 (chunkBases outs c1)).map Prod.fst →
        k ∈ (chunkWrites s c2 (chunkBases outs c2)).map Prod.fst → c1 = c2) ∧
      (∀ c, c < numChunks n s →
        ((chunkWrites s c (chunkBases outs c)).map Prod.fst).Nodup)) ∧
    ((∀ c, c < numChunks n s → (chunkBases outs c).length ≤ min s (n - c * s)) →
      (∃ c, c < numChunks n s ∧ (chunkBases outs c).length < min s (n - c * s)) →
      ∃ k, k < n ∧
        (runSched n s outs (List.range (numChunks n s))).getD k none = none) := by
  constructor
  · intro hcnt
    refine ⟨?_, ?_, fun c _ => chunkWrites_fst_nodup s c _⟩
    · intro k hk
      have heq := c5_lookup_order n s hs outs (List.range (numChunks n s))
        (List.Perm.refl _) hcnt
      rw [heq, getD_eq_getElem?, List.getElem?_map, List.getElem?_range hk]
      simp
    · intro c1 c2 k h1 h2 hk1 hk2
      have hl1 : (chunkBases outs c1).length ≤ s := by
        rw [hcnt c1 h1]; exact min_le_left _ _
      have hl2 : (chunkBases outs c2).length ≤ s := by
        rw [hcnt c2 h2]; exact min_le_left _ _
      have e1 := div_of_chunk_mem s c1 k _ hl1 hk1
      have e2 := div_of_chunk_mem s c2 k _ hl2 hk2
      omega
  · intro hle hdef
    rcases hdef with ⟨c0, hc0, hlt⟩
    have hLs : (chunkBases outs c0).length < s :=
      lt_of_lt_of_le hlt (min_le_left _ _)
    have hLn : (chunkBases outs c0).length < n - c0 * s :=
      lt_of_lt_of_le hlt (min_le_right _ _)
    refine ⟨c0 * s + (chunkBases outs c0).length, by omega, ?_⟩
    have hkn : c0 * s + (chunkBases outs c0).length < n := by omega
    have hdiv : (c0 * s + (chunkBases outs c0).length) / s = c0 := by
      apply Nat.div_eq_of_lt_le
      · exact Nat.le_add_right _ _
      · rw [Nat.succ_mul]
        omega
    have hmod : (c0 * s + (chunkBases outs c0).length) % s =
        (chunkBases outs c0).length := by
      rw [Nat.add_comm, Nat.add_mul_mod_self_right]
      exact Nat.mod_eq_of_lt hLs
    have hinit : (initBuf n).length = n := by simp [initBuf]
    have hle2 : ∀ c ∈ List.range (numChunks n s), (chunkBases outs c).length ≤ s := by
      intro c hcr
      have := hle c (List.mem_range.1 hcr)
      exact le_trans this (min_le_left _ _)
    have hmain := runFold_getElem s hs outs (c0 * s + (chunkBases outs c0).length)
      (List.range (numChunks n s)) (initBuf n) (List.nodup_range _) hle2
      (by rw [hinit]; exact hkn)
    rw [runSched, getD_eq_getElem?, hmain, if_neg ?_]
    · rw [initBuf, List.getElem?_replicate]
      simp [hkn]
    · rintro ⟨_, hoff⟩
      rw [hdiv, hmod] at hoff
      omega

def outsC9a : List (List String) := [["a", "c"]]

def outsC9b : List (List String) := [["a"]]

/-- Claim C9 witness: with two queries in one batch, a two-line output
fills both slots, while a one-line output leaves a slot unfilled at the
freeze. -/
theorem c9_write_once_witness :
    ((runSched 2 5000 outsC9a (List.range (numChunks 2 5000))).getD 0 none ≠ none ∧
     (runSched 2 5000 outsC9a (List.range (numChunks 2 5000))).getD 1 none ≠ none) ∧
    (∃ k, k < 2 ∧
      (runSched 2 5000 outsC9b (List.range (numChunks 2 5000))).getD k none = none) :=
  ⟨⟨((c9_write_once 2 5000 (by decide) outsC9a).1 (by decide)).1 0 (by decide),
    ((c9_write_once 2 5000 (by decide) outsC9a).1 (by decide)).1 1 (by decide)⟩,
   (c9_write_once 2 5000 (by decide) outsC9b).2 (by decide) ⟨0, by decide, by decide⟩⟩
